import Mathlib

/-!
# Verification of the umbrel-cli linting core (`src/modules/lint.ts`)

This file gives a shallow embedding of the three validators
`lintUmbrelAppStoreYml`, `lintUmbrelAppYml` and `lintDockerComposeYml`
from `src/modules/lint.ts`, and proves the testable properties of the
specification about them.

External collaborators are modelled as oracle inputs:
* `YAML.parse` outcomes are passed in as `Except String _` values
  (`.error e` is a thrown parse exception with message `String(e)`);
* the zod schema outcome (`schema.safeParseAsync`) is an
  `Except (List ZodIssue) _` value;
* the ajv outcome (`validate(...)` / `validate.errors`) is a `Bool`
  together with the error list (the `?? []` of the source is folded into
  the list type);
* `getSourceMapForKey` (in `src/utils/yaml`, not part of the file set) is
  an abstract function `List String → SrcPos`.  Modelled from the spec:
  it maps a key path to 1-based line/column ranges, or omits them when the
  path cannot be resolved.
* `mockVariables` (in `src/modules/mock`, not part of the file set) only
  affects which parse outcome the mocked parse oracle reports, so it needs
  no definition of its own here.
-/

/-- Severity of a diagnostic (`"error" | "warning" | "info"` in the source). -/
inductive Severity where
  | error
  | warning
  | info
deriving DecidableEq, Repr

/-- `LintingResult` from `src/modules/lint.ts` (lines 14–30).  The `id`
union type is represented by `String`; `line`/`column` are optional
1-based `(start, end)` ranges. -/
structure LintingResult where
  id : String
  propertiesPath : Option String := none
  line : Option (Nat × Nat) := none
  column : Option (Nat × Nat) := none
  severity : Severity
  title : String
  message : String
deriving DecidableEq, Repr

/-- Result of `getSourceMapForKey content path`: optional line/column
ranges, spread into a diagnostic.  Modelled from the spec (§4.1): the
resolver returns 1-based line/column ranges or omits them. -/
structure SrcPos where
  line : Option (Nat × Nat) := none
  column : Option (Nat × Nat) := none
deriving DecidableEq, Repr

/-- A source-map oracle that never resolves a position (used for witnesses). -/
def srcMap0 : List String → SrcPos := fun _ => {}

/-- The closed set of `zod` issue codes (`ZodIssueCode`); the source uses
them verbatim as diagnostic ids for app/app-store schema violations. -/
inductive ZodCode where
  | invalid_type
  | invalid_literal
  | unrecognized_keys
  | invalid_union
  | invalid_union_discriminator
  | invalid_enum_value
  | invalid_arguments
  | invalid_return_type
  | invalid_date
  | invalid_string
  | too_small
  | too_big
  | invalid_intersection_types
  | not_multiple_of
  | not_finite
  | custom
deriving DecidableEq, Repr

/-- The string value of a zod issue code. -/
def ZodCode.toId : ZodCode → String
  | .invalid_type => "invalid_type"
  | .invalid_literal => "invalid_literal"
  | .unrecognized_keys => "unrecognized_keys"
  | .invalid_union => "invalid_union"
  | .invalid_union_discriminator => "invalid_union_discriminator"
  | .invalid_enum_value => "invalid_enum_value"
  | .invalid_arguments => "invalid_arguments"
  | .invalid_return_type => "invalid_return_type"
  | .invalid_date => "invalid_date"
  | .invalid_string => "invalid_string"
  | .too_small => "too_small"
  | .too_big => "too_big"
  | .invalid_intersection_types => "invalid_intersection_types"
  | .not_multiple_of => "not_multiple_of"
  | .not_finite => "not_finite"
  | .custom => "custom"

/-- One zod issue: `code`, `path` (segments, numbers already rendered as
strings, joined with `.` by the source) and `message`. -/
structure ZodIssue where
  code : ZodCode
  path : List String
  message : String
deriving DecidableEq, Repr

/-- The closed set of ajv `DefinedError` keywords that can appear as
compose-schema diagnostic ids. -/
inductive AjvKeyword where
  | additionalItems
  | additionalProperties
  | anyOf
  | const
  | contains
  | dependencies
  | enum
  | format
  | if_
  | maximum
  | minimum
  | maxItems
  | minItems
  | maxLength
  | minLength
  | maxProperties
  | minProperties
  | multipleOf
  | not
  | oneOf
  | pattern
  | propertyNames
  | required
  | type
  | uniqueItems
deriving DecidableEq, Repr

/-- The string value of an ajv keyword (`if_` renders as `"if"`). -/
def AjvKeyword.toId : AjvKeyword → String
  | .additionalItems => "additionalItems"
  | .additionalProperties => "additionalProperties"
  | .anyOf => "anyOf"
  | .const => "const"
  | .contains => "contains"
  | .dependencies => "dependencies"
  | .enum => "enum"
  | .format => "format"
  | .if_ => "if"
  | .maximum => "maximum"
  | .minimum => "minimum"
  | .maxItems => "maxItems"
  | .minItems => "minItems"
  | .maxLength => "maxLength"
  | .minLength => "minLength"
  | .maxProperties => "maxProperties"
  | .minProperties => "minProperties"
  | .multipleOf => "multipleOf"
  | .not => "not"
  | .oneOf => "oneOf"
  | .pattern => "pattern"
  | .propertyNames => "propertyNames"
  | .required => "required"
  | .type => "type"
  | .uniqueItems => "uniqueItems"

/-- One ajv validation error: `keyword`, `instancePath` (a JSON pointer
such as `/services/web/image`) and optional `message`. -/
structure AjvError where
  keyword : AjvKeyword
  instancePath : String
  message : Option String
deriving DecidableEq, Repr

/-- A primitive YAML mapping value as seen through `Object.entries` in the
source (`string | number | boolean | null`). -/
inductive PrimValue where
  | str (s : String)
  | bool (b : Bool)
  | num (n : Int)
  | null
deriving DecidableEq, Repr

/-- `environment` / `labels` / `extra_hosts`: either the string-array form
or the key→value mapping form.  (In JS both are `typeof "object"`; the
source runs `Object.entries` over either.) -/
inductive ListOrDict where
  | list (items : List String)
  | dict (entries : List (String × PrimValue))
deriving DecidableEq, Repr

/-- One `volumes` entry of the raw (unmocked) compose document: a string,
an object carrying both `source` and `target`, or any other value (which
every volume loop of the source skips). -/
inductive Volume where
  | str (s : String)
  | obj (source target : String)
  | other
deriving DecidableEq, Repr

/-- A service of the mocked, schema-valid compose document; only the
fields read by `lintDockerComposeYml` are modelled.  `none` stands for an
absent (or `null`, hence falsy) field. -/
structure Service where
  image : Option String := none
  environment : Option ListOrDict := none
  labels : Option ListOrDict := none
  extra_hosts : Option ListOrDict := none
deriving DecidableEq, Repr

/-- The mocked compose document: `services` in key order
(JS object insertion order). -/
structure ComposeDoc where
  services : Option (List (String × Service)) := none
deriving DecidableEq, Repr

/-- A service of the raw (second, unmocked) parse; only `volumes` is read.
`none` also covers a present but non-array `volumes` value, which the
source skips via `Array.isArray`. -/
structure RawService where
  volumes : Option (List Volume) := none
deriving DecidableEq, Repr

/-- The raw compose document used for the volume checks. -/
structure RawDoc where
  services : Option (List (String × RawService)) := none
deriving DecidableEq, Repr

/-- `doc.services ?? {}` as a list of key/service pairs. -/
def docServices (d : ComposeDoc) : List (String × Service) :=
  d.services.getD []

/-- `doc.services ?? {}` of the raw document. -/
def rawServices (d : RawDoc) : List (String × RawService) :=
  d.services.getD []

/-! ## The APP_DATA_DIR regular expressions

The source uses four regexes built from `\$\{?APP_DATA_DIR\}?`:

* `/\$\{?APP_DATA_DIR\}?\/?:/`            (string-volume direct mount, line 289)
* `/\$\{?APP_DATA_DIR\}?\/?$/`            (object-volume direct mount, line 304)
* `/\$\{?APP_DATA_DIR\}?/`                (guard, lines 326 and 351)
* `/\$\{?APP_DATA_DIR\}?\/?(.*?):/`       (subpath extraction, line 327)
* `/\$\{?APP_DATA_DIR\}?\/?(.*?)$/`       (subpath extraction, line 353)

They are embedded below with JS semantics: matching is attempted at each
start position from the left, the optional parts `\{?`, `\}?`, `\/?` are
greedy (consuming the optional character never destroys a match that
skipping it would allow, because the following pattern parts can never use
that character), `.` does not match a newline, and `$` anchors at the very
end of the string. -/

/-- The `{` character (written via its code point). -/
def lbrace : Char := Char.ofNat 123

/-- The `}` character (written via its code point). -/
def rbrace : Char := Char.ofNat 125

/-- The characters of `APP_DATA_DIR`. -/
def appDataChars : List Char :=
  ['A', 'P', 'P', '_', 'D', 'A', 'T', 'A', '_', 'D', 'I', 'R']

/-- Consume one optional leading character (a greedy `c?`). -/
def dropOpt (c : Char) : List Char → List Char
  | [] => []
  | x :: xs => if x = c then xs else x :: xs

/-- Match `\$\{?APP_DATA_DIR\}?` at the head of the list; returns the
remainder on success. -/
def matchAdCore (l : List Char) : Option (List Char) :=
  match l with
  | '$' :: rest =>
    let rest1 := dropOpt lbrace rest
    if appDataChars.isPrefixOf rest1 then
      some (dropOpt rbrace (rest1.drop appDataChars.length))
    else
      none
  | _ => none

/-- Match `\$\{?APP_DATA_DIR\}?\/?` at the head of the list. -/
def matchAdPrefix (l : List Char) : Option (List Char) :=
  (matchAdCore l).map (dropOpt '/')

/-- Test of `/\$\{?APP_DATA_DIR\}?/` against a character list (match at
any position). -/
def containsAppDataDirList : List Char → Bool
  | [] => false
  | l@(_ :: rest) => (matchAdCore l).isSome || containsAppDataDirList rest

/-- Test of `/\$\{?APP_DATA_DIR\}?\/?:/` against a character list. -/
def directMountStrList : List Char → Bool
  | [] => false
  | l@(_ :: rest) =>
    (match matchAdPrefix l with
     | some (':' :: _) => true
     | _ => false) || directMountStrList rest

/-- Test of `/\$\{?APP_DATA_DIR\}?\/?$/` against a character list. -/
def directMountSrcList : List Char → Bool
  | [] => false
  | l@(_ :: rest) =>
    (match matchAdPrefix l with
     | some [] => true
     | _ => false) || directMountSrcList rest

/-- The lazy group of `(.*?):`: the shortest run of non-newline characters
followed by a `:`; `none` when no such colon exists. -/
def lazyToColonAux : List Char → List Char → Option String
  | [], _ => none
  | c :: cs, acc =>
    if c = ':' then some ⟨acc.reverse⟩
    else if c = '\n' then none
    else lazyToColonAux cs (c :: acc)

/-- The lazy group of `(.*?)$`: the whole remainder when it has no
newline, else no match (JS `$` anchors only at the very end). -/
def lazyToEnd (l : List Char) : Option String :=
  if l.contains '\n' then none else some ⟨l⟩

/-- Group 1 of the first (leftmost) match of
`/\$\{?APP_DATA_DIR\}?\/?(.*?):/`. -/
def extractSubpathColonList : List Char → Option String
  | [] => none
  | l@(_ :: rest) =>
    match matchAdPrefix l with
    | some rem =>
      match lazyToColonAux rem [] with
      | some g => some g
      | none => extractSubpathColonList rest
    | none => extractSubpathColonList rest

/-- Group 1 of the first (leftmost) match of
`/\$\{?APP_DATA_DIR\}?\/?(.*?)$/`. -/
def extractSubpathEndList : List Char → Option String
  | [] => none
  | l@(_ :: rest) =>
    match matchAdPrefix l with
    | some rem =>
      match lazyToEnd rem with
      | some g => some g
      | none => extractSubpathEndList rest
    | none => extractSubpathEndList rest

/-- String-level wrapper for the guard regex. -/
def containsAppDataDir (s : String) : Bool :=
  containsAppDataDirList s.data

/-- String-level wrapper for the string-volume direct-mount regex. -/
def directMountStr (s : String) : Bool :=
  directMountStrList s.data

/-- String-level wrapper for the object-volume direct-mount regex. -/
def directMountSrc (s : String) : Bool :=
  directMountSrcList s.data

/-- String-level wrapper for the colon-delimited subpath extraction. -/
def extractSubpathColon (s : String) : Option String :=
  extractSubpathColonList s.data

/-- String-level wrapper for the end-anchored subpath extraction. -/
def extractSubpathEnd (s : String) : Option String :=
  extractSubpathEndList s.data

/-! ## The image-name regular expression

`image.match(/^(.+):(.+)@(.+)$/)` — three greedy groups: group 1 ends at
the *last* `:` that still leaves a nonempty group 2, an `@` and a nonempty
group 3 behind it; group 2 then ends at the last usable `@`.  `.` does not
match a newline. -/

/-- JS match of `/^(.+):(.+)@(.+)$/` against a string; returns
`(name, tag, digest)` on success. -/
def imageMatch (s : String) : Option (String × String × String) :=
  let l := s.data
  let n := l.length
  if l.contains '\n' then none
  else
    let atIdx := (List.range n).filter fun j =>
      (l.get? j == some '@') && decide (j + 2 ≤ n)
    let colonIdx := (List.range n).filter fun i =>
      (l.get? i == some ':') && decide (1 ≤ i) &&
        atIdx.any (fun j => decide (i + 2 ≤ j))
    match colonIdx.getLast? with
    | none => none
    | some i =>
      match (atIdx.filter fun j => decide (i + 2 ≤ j)).getLast? with
      | none => none
      | some j =>
        some (⟨l.take i⟩, ⟨(l.drop (i + 1)).take (j - i - 1)⟩, ⟨l.drop (j + 1)⟩)

/-! ## Diagnostic constructors (one per `result.push` / `return` site) -/

/-- JS template rendering of a possibly-undefined string. -/
def jsShowOptStr : Option String → String
  | some s => s
  | none => "undefined"

/-- JS template rendering of a boolean. -/
def jsShowBool (b : Bool) : String :=
  if b then "true" else "false"

/-- The `invalid_yaml_syntax` diagnostic of `lintUmbrelAppStoreYml`. -/
def storeYamlSyntaxDiag (e : String) : LintingResult :=
  { id := "invalid_yaml_syntax"
    severity := .error
    title := "umbrel-app-store.yml is not a valid YAML file"
    message := e }

/-- The `invalid_yaml_syntax` diagnostic of `lintUmbrelAppYml`. -/
def appYamlSyntaxDiag (e : String) : LintingResult :=
  { id := "invalid_yaml_syntax"
    severity := .error
    title := "umbrel-app.yml is not a valid YAML file"
    message := e }

/-- The `invalid_yaml_syntax` diagnostic of `lintDockerComposeYml`. -/
def composeYamlSyntaxDiag (e : String) : LintingResult :=
  { id := "invalid_yaml_syntax"
    severity := .error
    title := "docker-compose.yml is not a valid YAML file"
    message := e }

/-- Mapping of one zod issue to a diagnostic (lines 54–64 / 97–107). -/
def zodIssueDiag (srcMap : List String → SrcPos) (issue : ZodIssue) :
    LintingResult :=
  let p := String.intercalate "." issue.path
  let pos := srcMap issue.path
  { id := issue.code.toId
    propertiesPath := some p
    line := pos.line
    column := pos.column
    severity := .error
    title := p
    message := issue.message }

/-- `path.normalize(instancePath).split(path.sep).filter(Boolean)`: an ajv
instance path is a JSON pointer (`/a/b`), on which normalization is the
identity, so this is the list of nonempty `/`-separated segments. -/
def ajvPathSegs (instancePath : String) : List String :=
  (instancePath.splitOn "/").filter (fun seg => seg != "")

/-- Mapping of one ajv error to a diagnostic (lines 162–179). -/
def ajvErrorDiag (srcMap : List String → SrcPos) (err : AjvError) :
    LintingResult :=
  let segs := ajvPathSegs err.instancePath
  let pos := srcMap segs
  { id := err.keyword.toId
    propertiesPath := some (String.intercalate "." segs)
    line := pos.line
    column := pos.column
    severity := .error
    title := err.instancePath
    message := err.message.getD "Unknown error" }

/-- The `invalid_docker_image_name` error for a non-matching image
(lines 193–200). -/
def imageNameErrorDiag (srcMap : List String → SrcPos) (s img : String) :
    LintingResult :=
  let pos := srcMap ["services", s, "image"]
  { id := "invalid_docker_image_name"
    propertiesPath := some ("services." ++ s ++ ".image")
    line := pos.line
    column := pos.column
    severity := .error
    title := "Invalid image name \"" ++ img ++ "\""
    message := "Images should be named like \"<name>:<version-tag>@<sha256>\"" }

/-- The `invalid_docker_image_name` warning for a `latest` tag
(lines 204–211). -/
def imageLatestDiag (srcMap : List String → SrcPos) (s version : String) :
    LintingResult :=
  let pos := srcMap ["services", s, "image"]
  { id := "invalid_docker_image_name"
    propertiesPath := some ("services." ++ s ++ ".image")
    line := pos.line
    column := pos.column
    severity := .warning
    title := "Invalid image tag \"" ++ version ++ "\""
    message := "Images should not use the \"latest\" tag" }

/-- The `invalid_yaml_boolean_value` error (lines 244–256; the word
`thould` is a typo of the source). -/
def boolValueDiag (srcMap : List String → SrcPos)
    (s label key : String) (b : Bool) : LintingResult :=
  let pos := srcMap ["services", s, label, key]
  { id := "invalid_yaml_boolean_value"
    propertiesPath := some ("services." ++ s ++ "." ++ label ++ "." ++ key)
    line := pos.line
    column := pos.column
    severity := .error
    title := "Invalid YAML boolean value for key \"" ++ key ++ "\""
    message := "Boolean values thould be strings like \"" ++ jsShowBool b ++
      "\" instead of " ++ jsShowBool b }

/-- The `invalid_app_data_dir_volume_mount` warning for a string volume
(lines 290–297). -/
def mountStrDiag (srcMap : List String → SrcPos) (s vol : String) :
    LintingResult :=
  let pos := srcMap ["services", s, "volumes"]
  { id := "invalid_app_data_dir_volume_mount"
    propertiesPath := some ("services." ++ s ++ ".volumes")
    line := pos.line
    column := pos.column
    severity := .warning
    title := "Volume \"" ++ vol ++ "\""
    message := "Volumes should not be mounted directly into the \"$\x7bAPP_DATA_DIR\x7d\" directory! Please use a subdirectory like \"$\x7bAPP_DATA_DIR\x7d/data" ++
      (((vol.splitOn ":").get? 1).getD "") ++ "\" instead." }

/-- The `invalid_app_data_dir_volume_mount` warning for an object volume
(lines 305–312). -/
def mountObjDiag (srcMap : List String → SrcPos) (s source target : String) :
    LintingResult :=
  let pos := srcMap ["services", s, "volumes"]
  { id := "invalid_app_data_dir_volume_mount"
    propertiesPath := some ("services." ++ s ++ ".volumes")
    line := pos.line
    column := pos.column
    severity := .warning
    title := "Volume \"" ++ source ++ ":" ++ target ++ "\""
    message := "Volumes should not be mounted directly into the \"$\x7bAPP_DATA_DIR\x7d\" directory! Please use a subdirectory like \"source: $\x7bAPP_DATA_DIR\x7d/data\" and \"target: " ++
      target ++ "\" instead." }

/-- The `missing_file_or_directory` error for a string volume
(lines 332–343). -/
def missingStrDiag (srcMap : List String → SrcPos)
    (s vol m appId : String) : LintingResult :=
  let pos := srcMap ["services", s, "volumes"]
  { id := "missing_file_or_directory"
    propertiesPath := some ("services." ++ s ++ ".volumes")
    line := pos.line
    column := pos.column
    severity := .error
    title := "Missing file/directory \"" ++ appId ++ "/" ++ m ++ "\""
    message := "The volume \"" ++ vol ++ "\" tries to mount the file/directory \"" ++
      appId ++ "/" ++ m ++
      "\", but it is not present! Please create that file/directory!" }

/-- The `missing_file_or_directory` error for an object volume
(lines 359–370). -/
def missingObjDiag (srcMap : List String → SrcPos)
    (s source target m appId : String) : LintingResult :=
  let pos := srcMap ["services", s, "volumes"]
  { id := "missing_file_or_directory"
    propertiesPath := some ("services." ++ s ++ ".volumes")
    line := pos.line
    column := pos.column
    severity := .error
    title := "Missing file/directory \"" ++ appId ++ "/" ++ m ++ "\""
    message := "The volume \"" ++ source ++ ":" ++ target ++
      "\" tries to mount the file/directory \"" ++ appId ++ "/" ++ m ++
      "\", but it is not present! Please create that file/directory!" }

/-- The `invalid_submission_field` error (lines 118–125). -/
def submissionDiag (submission : Option String) (pullRequestUrl : String) :
    LintingResult :=
  { id := "invalid_submission_field"
    severity := .error
    title := "Invalid submission field \"" ++ jsShowOptStr submission ++ "\""
    message := "The submission field must be set to the URL of this pull request: " ++
      pullRequestUrl }

/-! ## The three validators -/

/-- `lintUmbrelAppStoreYml` (lines 32–67).  `parse` is the outcome of
`YAML.parse(content)`, `zodRes` the outcome of
`schema.safeParseAsync(...)` (its success data is not used). -/
def lintUmbrelAppStoreYml (parse : Except String Unit)
    (zodRes : Except (List ZodIssue) Unit)
    (srcMap : List String → SrcPos) : List LintingResult :=
  match parse with
  | .error e => [storeYamlSyntaxDiag e]
  | .ok _ =>
    match zodRes with
    | .error issues => issues.map (zodIssueDiag srcMap)
    | .ok _ => []

/-- The shape of the zod-validated app manifest, restricted to the one
field the linter reads. -/
structure AppYml where
  submission : Option String := none
deriving DecidableEq, Repr

/-- `LintUmbrelAppYmlOptions` (lines 69–72). -/
structure LintUmbrelAppYmlOptions where
  isNewAppSubmission : Option Bool := none
  pullRequestUrl : Option String := none
deriving DecidableEq, Repr

/-- JS truthiness of an optional boolean option. -/
def optBoolTruthy : Option Bool → Bool
  | some b => b
  | none => false

/-- JS truthiness of an optional string option (the empty string is falsy). -/
def optStrTruthy : Option String → Bool
  | some s => s != ""
  | none => false

/-- `lintUmbrelAppYml` (lines 74–129).  `zodRes` carries the parsed
manifest on success. -/
def lintUmbrelAppYml (parse : Except String Unit)
    (zodRes : Except (List ZodIssue) AppYml)
    (options : LintUmbrelAppYmlOptions)
    (srcMap : List String → SrcPos) : List LintingResult :=
  match parse with
  | .error e => [appYamlSyntaxDiag e]
  | .ok _ =>
    match zodRes with
    | .error issues => issues.map (zodIssueDiag srcMap)
    | .ok umbrelAppYml =>
      if optBoolTruthy options.isNewAppSubmission &&
         optStrTruthy options.pullRequestUrl &&
         (umbrelAppYml.submission != options.pullRequestUrl) then
        [submissionDiag umbrelAppYml.submission
          (options.pullRequestUrl.getD "")]
      else
        []

/-- Image-naming check of one service (lines 186–214); `!image` skips both
an absent and an empty image. -/
def imageCheckForService (srcMap : List String → SrcPos)
    (s : String) (svc : Service) : List LintingResult :=
  match svc.image with
  | none => []
  | some img =>
    if img = "" then []
    else
      match imageMatch img with
      | none => [imageNameErrorDiag srcMap s img]
      | some (_, version, _) =>
        if version = "latest" then [imageLatestDiag srcMap s version]
        else []

/-- `Object.entries` of a list-or-dict value: for the array form the keys
are the decimal indices and the values the (string) elements. -/
def lodEntries : ListOrDict → List (String × PrimValue)
  | .list items => items.enum.map fun p => (toString p.1, PrimValue.str p.2)
  | .dict entries => entries

/-- The `properties` array of the bare-boolean check (lines 223–239), in
source order. -/
def boolProps (svc : Service) : List (String × List (String × PrimValue)) :=
  (match svc.environment with
   | some lod => [("environment", lodEntries lod)]
   | none => []) ++
  (match svc.labels with
   | some lod => [("labels", lodEntries lod)]
   | none => []) ++
  (match svc.extra_hosts with
   | some lod => [("extra_hosts", lodEntries lod)]
   | none => [])

/-- Bare-boolean check of one service (lines 219–260). -/
def boolCheckForService (srcMap : List String → SrcPos)
    (s : String) (svc : Service) : List LintingResult :=
  (boolProps svc).flatMap fun property =>
    property.2.flatMap fun kv =>
      match kv.2 with
      | .bool b => [boolValueDiag srcMap s property.1 kv.1 b]
      | _ => []

/-- Direct-`APP_DATA_DIR`-mount check of one service (lines 283–317). -/
def mountCheckForService (srcMap : List String → SrcPos)
    (s : String) (svc : RawService) : List LintingResult :=
  match svc.volumes with
  | none => []
  | some volumes =>
    volumes.flatMap fun volume =>
      match volume with
      | .str v =>
        if directMountStr v then [mountStrDiag srcMap s v] else []
      | .obj source target =>
        if directMountSrc source then [mountObjDiag srcMap s source target]
        else []
      | .other => []

/-- Missing-file check of one service (lines 320–376).  An extracted
subpath that is `undefined` or the (falsy) empty string is skipped. -/
def missingCheckForService (srcMap : List String → SrcPos)
    (files : List String) (appId : String)
    (s : String) (svc : RawService) : List LintingResult :=
  match svc.volumes with
  | none => []
  | some volumes =>
    volumes.flatMap fun volume =>
      match volume with
      | .str v =>
        if containsAppDataDir v then
          match extractSubpathColon v with
          | none => []
          | some m =>
            if m = "" then []
            else if files.contains (appId ++ "/" ++ m) then []
            else [missingStrDiag srcMap s v m appId]
        else []
      | .obj source target =>
        if containsAppDataDir source then
          match extractSubpathEnd source with
          | none => []
          | some m =>
            if m = "" then []
            else if files.contains (appId ++ "/" ++ m) then []
            else [missingObjDiag srcMap s source target m appId]
        else []
      | .other => []

/-- `lintDockerComposeYml` (lines 131–379).  `mockedParse` is the outcome
of `YAML.parse(mockVariables(content), merge)`, `schemaValid` /
`schemaErrors` the ajv outcome on that document, and `rawParse` the
outcome of the second `YAML.parse(content, merge)` (whose failure discards
the accumulated result, lines 265–281). -/
def lintDockerComposeYml (mockedParse : Except String ComposeDoc)
    (schemaValid : Bool) (schemaErrors : List AjvError)
    (rawParse : Except String RawDoc)
    (files : List String) (appId : String)
    (srcMap : List String → SrcPos) : List LintingResult :=
  match mockedParse with
  | .error e => [composeYamlSyntaxDiag e]
  | .ok mocked =>
    if !schemaValid then
      schemaErrors.map (ajvErrorDiag srcMap)
    else
      let part1 := (docServices mocked).flatMap fun p =>
        imageCheckForService srcMap p.1 p.2
      let part2 := (docServices mocked).flatMap fun p =>
        boolCheckForService srcMap p.1 p.2
      match rawParse with
      | .error e => [composeYamlSyntaxDiag e]
      | .ok raw =>
        part1 ++ part2 ++
          ((rawServices raw).flatMap fun p =>
            mountCheckForService srcMap p.1 p.2) ++
          ((rawServices raw).flatMap fun p =>
            missingCheckForService srcMap files appId p.1 p.2)

/-- Number of diagnostics carrying a given id. -/
def countId (rs : List LintingResult) (i : String) : Nat :=
  (rs.filter fun r => r.id == i).length

/-! ## Concrete example documents -/

/-- A mocked compose document with one service whose image violates the
naming convention (`"nginx"` has no tag/digest). -/
def docBadImage : ComposeDoc := ⟨some [("web", { image := some "nginx" })]⟩

/-- A mocked compose document whose only image is well-formed with a
pinned (non-`latest`) tag. -/
def docGoodImage : ComposeDoc :=
  ⟨some [("web", { image := some "nginx:1.25@sha256:abcd" })]⟩

/-- A raw compose document with a single service and no volumes. -/
def rawWeb : RawDoc := ⟨some [("web", {})]⟩

/-- A sample ajv violation against `docBadImage`. -/
def ajvErr0 : AjvError :=
  ⟨.required, "/services/web", some "must have required property"⟩

/-- The multi-colon image reference discussed by the specification. -/
def imgMultiColon : String := "registry:5000/img:latest@sha256:abc"

/-- One service whose environment mapping carries a native boolean. -/
def docEnvBool : ComposeDoc :=
  ⟨some [("web", { environment := some (.dict [("DEBUG", .bool true)]) })]⟩

/-- The same environment value as the quoted string `"true"`. -/
def docEnvStr : ComposeDoc :=
  ⟨some [("web", { environment := some (.dict [("DEBUG", .str "true")]) })]⟩

/-- A raw document with a direct `APP_DATA_DIR` string mount. -/
def rawMountDirect : RawDoc :=
  ⟨some [("web", ⟨some [.str "$\x7bAPP_DATA_DIR\x7d:/data"]⟩)]⟩

/-- A raw document mounting the subdirectory `sub` of the data root. -/
def rawMountSub : RawDoc :=
  ⟨some [("web", ⟨some [.str "$\x7bAPP_DATA_DIR\x7d/sub:/data"]⟩)]⟩

/-- A raw document with an object-form volume mounting the data root
directly. -/
def rawMountObjDirect : RawDoc :=
  ⟨some [("web", ⟨some [.obj "$\x7bAPP_DATA_DIR\x7d" "/data"]⟩)]⟩

/-- An empty mocked compose document (used when only the raw document
matters). -/
def mockedEmpty : ComposeDoc := {}

/-- A sample zod issue. -/
def zodIssue0 : ZodIssue := ⟨.invalid_type, ["name"], "Required"⟩

/-- A pull-request URL for the submission-mode examples. -/
def prUrl0 : String := "https://github.com/getumbrel/umbrel-apps/pull/1"

/-- The severity discipline of all three validators: every diagnostic is
an error or a warning (never info); warnings only ever carry the
`invalid_docker_image_name` or `invalid_app_data_dir_volume_mount` id;
and every `invalid_app_data_dir_volume_mount` diagnostic is a warning. -/
def severityPolicy (r : LintingResult) : Prop :=
  (r.severity = .error ∨ r.severity = .warning) ∧
  (r.severity = .warning →
    r.id = "invalid_docker_image_name" ∨
    r.id = "invalid_app_data_dir_volume_mount") ∧
  (r.id = "invalid_app_data_dir_volume_mount" → r.severity = .warning)

/-! ## Helper lemmas -/

/-- On a parse-valid, schema-valid document the result is the
concatenation of the four semantic checks, service by service. -/
theorem lint_ok_valid_eq (mocked : ComposeDoc) (schemaErrors : List AjvError)
    (raw : RawDoc) (files : List String) (appId : String)
    (srcMap : List String → SrcPos) :
    lintDockerComposeYml (.ok mocked) true schemaErrors (.ok raw) files
        appId srcMap =
      ((docServices mocked).flatMap fun p =>
        imageCheckForService srcMap p.1 p.2) ++
      ((docServices mocked).flatMap fun p =>
        boolCheckForService srcMap p.1 p.2) ++
      ((rawServices raw).flatMap fun p =>
        mountCheckForService srcMap p.1 p.2) ++
      ((rawServices raw).flatMap fun p =>
        missingCheckForService srcMap files appId p.1 p.2) := rfl

theorem countId_append (a b : List LintingResult) (i : String) :
    countId (a ++ b) i = countId a i + countId b i := by
  simp [countId, List.filter_append]

theorem countId_eq_zero {rs : List LintingResult} {i : String}
    (h : ∀ r ∈ rs, r.id ≠ i) : countId rs i = 0 := by
  have : rs.filter (fun r => r.id == i) = [] :=
    List.filter_eq_nil_iff.mpr (by simpa using h)
  simp [countId, this]

theorem countId_flatMap_zero {α : Type} {l : List α}
    {f : α → List LintingResult} {i : String}
    (h : ∀ x ∈ l, ∀ r ∈ f x, r.id ≠ i) : countId (l.flatMap f) i = 0 :=
  countId_eq_zero fun r hr => by
    obtain ⟨x, hx, hrx⟩ := List.mem_flatMap.mp hr
    exact h x hx r hrx

theorem filter_id_eq_self {rs : List LintingResult} {i : String}
    (h : ∀ r ∈ rs, r.id = i) :
    rs.filter (fun r => r.id == i) = rs :=
  List.filter_eq_self.mpr (by simpa using h)

theorem filter_id_eq_nil {rs : List LintingResult} {i : String}
    (h : ∀ r ∈ rs, r.id ≠ i) :
    rs.filter (fun r => r.id == i) = [] :=
  List.filter_eq_nil_iff.mpr (by simpa using h)

/-- Every diagnostic of the image check is the non-matching error or the
`latest` warning of its service. -/
theorem mem_imageCheckForService {srcMap : List String → SrcPos} {s : String}
    {svc : Service} {r : LintingResult}
    (h : r ∈ imageCheckForService srcMap s svc) :
    (∃ img, r = imageNameErrorDiag srcMap s img) ∨
      r = imageLatestDiag srcMap s "latest" := by
  unfold imageCheckForService at h
  rcases hi : svc.image with _ | img <;> rw [hi] at h
  · simp at h
  · dsimp only at h
    by_cases he : img = ""
    · simp [he] at h
    · rw [if_neg he] at h
      rcases hm : imageMatch img with _ | ⟨n, v, d⟩ <;> rw [hm] at h
      · simp at h
        exact .inl ⟨img, h⟩
      · by_cases hvl : v = "latest"
        · subst hvl
          simp at h
          exact .inr h
        · simp [hvl] at h

/-- Every diagnostic of the bare-boolean check is a `boolValueDiag` of its
service. -/
theorem mem_boolCheckForService {srcMap : List String → SrcPos} {s : String}
    {svc : Service} {r : LintingResult}
    (h : r ∈ boolCheckForService srcMap s svc) :
    ∃ label key b, r = boolValueDiag srcMap s label key b := by
  unfold boolCheckForService at h
  obtain ⟨property, _, h⟩ := List.mem_flatMap.mp h
  obtain ⟨kv, _, h⟩ := List.mem_flatMap.mp h
  rcases kv with ⟨key, v⟩
  cases v <;> simp at h
  exact ⟨property.1, key, _, h⟩

/-- Every diagnostic of the direct-mount check is a mount warning of its
service. -/
theorem mem_mountCheckForService {srcMap : List String → SrcPos} {s : String}
    {svc : RawService} {r : LintingResult}
    (h : r ∈ mountCheckForService srcMap s svc) :
    (∃ v, r = mountStrDiag srcMap s v) ∨
      ∃ source target, r = mountObjDiag srcMap s source target := by
  unfold mountCheckForService at h
  rcases hvs : svc.volumes with _ | volumes <;> rw [hvs] at h
  · simp at h
  · obtain ⟨volume, hmem, h⟩ := List.mem_flatMap.mp h
    cases volume with
    | str v =>
      by_cases hd : directMountStr v
      · simp [hd] at h
        exact .inl ⟨v, h⟩
      · simp [hd] at h
    | obj source target =>
      by_cases hd : directMountSrc source
      · simp [hd] at h
        exact .inr ⟨source, target, h⟩
      · simp [hd] at h
    | other => simp at h

/-- Every diagnostic of the missing-file check is a missing-file error of
its service. -/
theorem mem_missingCheckForService {srcMap : List String → SrcPos}
    {files : List String} {appId : String} {s : String}
    {svc : RawService} {r : LintingResult}
    (h : r ∈ missingCheckForService srcMap files appId s svc) :
    (∃ v m, r = missingStrDiag srcMap s v m appId) ∨
      ∃ source target m, r = missingObjDiag srcMap s source target m appId := by
  unfold missingCheckForService at h
  rcases hvs : svc.volumes with _ | volumes <;> rw [hvs] at h
  · simp at h
  · obtain ⟨volume, hmem, h⟩ := List.mem_flatMap.mp h
    cases volume with
    | str v =>
      by_cases hc : containsAppDataDir v
      · rcases hx : extractSubpathColon v with _ | m
        · simp [hc, hx] at h
        · by_cases hm0 : m = ""
          · simp [hc, hx, hm0] at h
          · by_cases hf : (appId ++ "/" ++ m) ∈ files
            · simp [hc, hx, hm0, hf] at h
            · simp [hc, hx, hm0, hf] at h
              exact .inl ⟨v, m, h⟩
      · simp [hc] at h
    | obj source target =>
      by_cases hc : containsAppDataDir source
      · rcases hx : extractSubpathEnd source with _ | m
        · simp [hc, hx] at h
        · by_cases hm0 : m = ""
          · simp [hc, hx, hm0] at h
          · by_cases hf : (appId ++ "/" ++ m) ∈ files
            · simp [hc, hx, hm0, hf] at h
            · simp [hc, hx, hm0, hf] at h
              exact .inr ⟨source, target, m, h⟩
      · simp [hc] at h
    | other => simp at h

/-! ## Claims -/

/-- C1: for every YAML-parse failure (exception rendered as `e`), each of
the three validators returns exactly one diagnostic, with id
`invalid_yaml_syntax`, severity `error`, and no `propertiesPath`, `line`
or `column` fields. -/
theorem claim1_invalid_yaml_single_diag (e : String)
    (zs : Except (List ZodIssue) Unit) (za : Except (List ZodIssue) AppYml)
    (options : LintUmbrelAppYmlOptions)
    (schemaValid : Bool) (schemaErrors : List AjvError)
    (rawParse : Except String RawDoc) (files : List String) (appId : String)
    (srcMap : List String → SrcPos) :
    lintUmbrelAppStoreYml (.error e) zs srcMap =
      [{ id := "invalid_yaml_syntax", propertiesPath := none, line := none,
         column := none, severity := .error,
         title := "umbrel-app-store.yml is not a valid YAML file",
         message := e }] ∧
    lintUmbrelAppYml (.error e) za options srcMap =
      [{ id := "invalid_yaml_syntax", propertiesPath := none, line := none,
         column := none, severity := .error,
         title := "umbrel-app.yml is not a valid YAML file",
         message := e }] ∧
    lintDockerComposeYml (.error e) schemaValid schemaErrors rawParse files
        appId srcMap =
      [{ id := "invalid_yaml_syntax", propertiesPath := none, line := none,
         column := none, severity := .error,
         title := "docker-compose.yml is not a valid YAML file",
         message := e }] :=
  ⟨rfl, rfl, rfl⟩

/-- C2 counterexample: on a schema-invalid compose document whose only
service has a convention-violating image, the validator returns only the
schema diagnostics — the semantic image check does *not* run (running the
same document with a passing schema produces the image diagnostic). -/
theorem claim2_counterexample :
    lintDockerComposeYml (.ok docBadImage) false [ajvErr0] (.ok rawWeb)
        [] "app" srcMap0 = [ajvErrorDiag srcMap0 ajvErr0] ∧
    countId (lintDockerComposeYml (.ok docBadImage) false [ajvErr0]
        (.ok rawWeb) [] "app" srcMap0) "invalid_docker_image_name" = 0 ∧
    countId (lintDockerComposeYml (.ok docBadImage) true []
        (.ok rawWeb) [] "app" srcMap0) "invalid_docker_image_name" = 1 := by
  refine ⟨rfl, by decide, by decide⟩

/-- C2 amended: schema-violation diagnostics short-circuit the semantic
checks exactly like a syntax failure does — a schema-invalid document
yields precisely the mapped ajv errors; only when schema validation
succeeds (and the second parse succeeds) do the four semantic checks run,
appended in order to one result sequence, none stopping its siblings. -/
theorem claim2_amended (mocked : ComposeDoc) (schemaErrors : List AjvError)
    (rawParse : Except String RawDoc) (raw : RawDoc)
    (files : List String) (appId : String)
    (srcMap : List String → SrcPos) :
    lintDockerComposeYml (.ok mocked) false schemaErrors rawParse files
        appId srcMap = schemaErrors.map (ajvErrorDiag srcMap) ∧
    lintDockerComposeYml (.ok mocked) true schemaErrors (.ok raw) files
        appId srcMap =
      ((docServices mocked).flatMap fun p =>
        imageCheckForService srcMap p.1 p.2) ++
      ((docServices mocked).flatMap fun p =>
        boolCheckForService srcMap p.1 p.2) ++
      ((rawServices raw).flatMap fun p =>
        mountCheckForService srcMap p.1 p.2) ++
      ((rawServices raw).flatMap fun p =>
        missingCheckForService srcMap files appId p.1 p.2) :=
  ⟨rfl, rfl⟩

/-- C4 counterexample: the image regex is greedy, not non-greedy.  On
`registry:5000/img:latest@sha256:abc` the tag component used for the
`latest` decision is `"latest"` (the name takes the *longest* prefix), not
the non-greedy `"5000/img:latest"`, and accordingly the validator emits
the `latest` warning for a service using this image. -/
theorem claim4_counterexample :
    imageMatch imgMultiColon =
      some ("registry:5000/img", "latest", "sha256:abc") ∧
    imageMatch imgMultiColon ≠
      some ("registry", "5000/img:latest", "sha256:abc") ∧
    lintDockerComposeYml (.ok ⟨some [("web", { image := some imgMultiColon })]⟩)
        true [] (.ok rawWeb) [] "app" srcMap0 =
      [imageLatestDiag srcMap0 "web" "latest"] := by
  refine ⟨by decide, by decide, rfl⟩

/-- C4 amended: the image-naming check decomposes every image reference
with greedy components (`/^(.+):(.+)@(.+)$/`): the name is the longest
prefix before a `:` that still admits a match, so for an image with more
than one `:` before the `@`, such as `registry:5000/img:latest@sha256:abc`,
the tag used for the latest-tag decision is `"latest"`, and the warning is
produced. -/
theorem claim4_amended (s appId : String) (files : List String)
    (srcMap : List String → SrcPos) :
    imageMatch imgMultiColon =
      some ("registry:5000/img", "latest", "sha256:abc") ∧
    lintDockerComposeYml (.ok ⟨some [(s, { image := some imgMultiColon })]⟩)
        true [] (.ok ⟨some []⟩) files appId srcMap =
      [imageLatestDiag srcMap s "latest"] := by
  refine ⟨by decide, rfl⟩

/-- Image-check diagnostics carry the `invalid_docker_image_name` id. -/
theorem id_of_mem_imageCheck {srcMap : List String → SrcPos} {s : String}
    {svc : Service} {r : LintingResult}
    (h : r ∈ imageCheckForService srcMap s svc) :
    r.id = "invalid_docker_image_name" := by
  rcases mem_imageCheckForService h with ⟨img, rfl⟩ | rfl <;> rfl

/-- Bare-boolean diagnostics carry the `invalid_yaml_boolean_value` id. -/
theorem id_of_mem_boolCheck {srcMap : List String → SrcPos} {s : String}
    {svc : Service} {r : LintingResult}
    (h : r ∈ boolCheckForService srcMap s svc) :
    r.id = "invalid_yaml_boolean_value" := by
  obtain ⟨label, key, b, rfl⟩ := mem_boolCheckForService h
  rfl

/-- Direct-mount diagnostics carry the `invalid_app_data_dir_volume_mount`
id. -/
theorem id_of_mem_mountCheck {srcMap : List String → SrcPos} {s : String}
    {svc : RawService} {r : LintingResult}
    (h : r ∈ mountCheckForService srcMap s svc) :
    r.id = "invalid_app_data_dir_volume_mount" := by
  rcases mem_mountCheckForService h with ⟨v, rfl⟩ | ⟨source, target, rfl⟩ <;> rfl

/-- Missing-file diagnostics carry the `missing_file_or_directory` id. -/
theorem id_of_mem_missingCheck {srcMap : List String → SrcPos}
    {files : List String} {appId : String} {s : String}
    {svc : RawService} {r : LintingResult}
    (h : r ∈ missingCheckForService srcMap files appId s svc) :
    r.id = "missing_file_or_directory" := by
  rcases mem_missingCheckForService h with ⟨v, m, rfl⟩ | ⟨source, target, m, rfl⟩ <;>
    rfl

/-- C3: on a schema-valid compose document, every service with a
non-matching image yields the `invalid_docker_image_name` error, every
matching image with tag `latest` yields the warning of the same id, and
when every image matches `name:tag@digest` with a tag other than `latest`
no `invalid_docker_image_name` diagnostic appears at all. -/
theorem claim3_image_naming (mocked : ComposeDoc) (raw : RawDoc)
    (schemaErrors : List AjvError) (files : List String) (appId : String)
    (srcMap : List String → SrcPos) :
    (∀ s svc img, (s, svc) ∈ docServices mocked → svc.image = some img →
      img ≠ "" → imageMatch img = none →
      imageNameErrorDiag srcMap s img ∈
        lintDockerComposeYml (.ok mocked) true schemaErrors (.ok raw)
          files appId srcMap) ∧
    (∀ s svc img n t d, (s, svc) ∈ docServices mocked →
      svc.image = some img → imageMatch img = some (n, t, d) →
      t = "latest" →
      imageLatestDiag srcMap s "latest" ∈
        lintDockerComposeYml (.ok mocked) true schemaErrors (.ok raw)
          files appId srcMap) ∧
    ((∀ s svc img, (s, svc) ∈ docServices mocked → svc.image = some img →
        img ≠ "" → ∃ n t d, imageMatch img = some (n, t, d) ∧ t ≠ "latest") →
      countId
        (lintDockerComposeYml (.ok mocked) true schemaErrors (.ok raw)
          files appId srcMap) "invalid_docker_image_name" = 0) := by
  rw [lint_ok_valid_eq]
  refine ⟨?_, ?_, ?_⟩
  · intro s svc img hmem hi he hm
    refine List.mem_append_left _ (List.mem_append_left _
      (List.mem_append_left _ (List.mem_flatMap.mpr ⟨(s, svc), hmem, ?_⟩)))
    simp [imageCheckForService, hi, he, hm]
  · intro s svc img n t d hmem hi hm ht
    subst ht
    have he : img ≠ "" := by
      intro h0
      rw [h0, show imageMatch "" = none by decide] at hm
      exact Option.noConfusion hm
    refine List.mem_append_left _ (List.mem_append_left _
      (List.mem_append_left _ (List.mem_flatMap.mpr ⟨(s, svc), hmem, ?_⟩)))
    simp [imageCheckForService, hi, he, hm]
  · intro hall
    rw [countId_append, countId_append, countId_append]
    have h1 : countId ((docServices mocked).flatMap fun p =>
        imageCheckForService srcMap p.1 p.2) "invalid_docker_image_name" = 0 := by
      refine countId_flatMap_zero ?_
      rintro ⟨s, svc⟩ hx r hr
      rcases hi : svc.image with _ | img
      · simp [imageCheckForService, hi] at hr
      · by_cases he : img = ""
        · simp [imageCheckForService, hi, he] at hr
        · obtain ⟨n, t, d, hm, ht⟩ := hall s svc img hx hi he
          simp [imageCheckForService, hi, he, hm, ht] at hr
    have h2 : countId ((docServices mocked).flatMap fun p =>
        boolCheckForService srcMap p.1 p.2) "invalid_docker_image_name" = 0 :=
      countId_flatMap_zero fun x _ r hr => by
        rw [id_of_mem_boolCheck hr]; decide
    have h3 : countId ((rawServices raw).flatMap fun p =>
        mountCheckForService srcMap p.1 p.2) "invalid_docker_image_name" = 0 :=
      countId_flatMap_zero fun x _ r hr => by
        rw [id_of_mem_mountCheck hr]; decide
    have h4 : countId ((rawServices raw).flatMap fun p =>
        missingCheckForService srcMap files appId p.1 p.2)
        "invalid_docker_image_name" = 0 :=
      countId_flatMap_zero fun x _ r hr => by
        rw [id_of_mem_missingCheck hr]; decide
    rw [h1, h2, h3, h4]

/-- Witness for C3 at concrete documents: the bad image `"nginx"` yields
its error diagnostic, and a document whose only image is pinned to a
non-`latest` tag yields no `invalid_docker_image_name` diagnostic. -/
theorem claim3_witness :
    imageNameErrorDiag srcMap0 "web" "nginx" ∈
      lintDockerComposeYml (.ok docBadImage) true [] (.ok rawWeb) [] "app"
        srcMap0 ∧
    countId (lintDockerComposeYml (.ok docGoodImage) true [] (.ok rawWeb)
      [] "app" srcMap0) "invalid_docker_image_name" = 0 := by
  constructor
  · exact (claim3_image_naming docBadImage rawWeb [] [] "app" srcMap0).1
      "web" { image := some "nginx" } "nginx" (by decide) rfl (by decide)
      (by decide)
  · refine (claim3_image_naming docGoodImage rawWeb [] [] "app" srcMap0).2.2 ?_
    intro s svc img hmem hi _he
    have hsvc : svc = { image := some "nginx:1.25@sha256:abcd" } :=
      congrArg Prod.snd (List.mem_singleton.mp hmem)
    subst hsvc
    have himg : some "nginx:1.25@sha256:abcd" = some img := hi
    obtain rfl : img = "nginx:1.25@sha256:abcd" :=
      (Option.some.injEq _ _ ▸ himg).symm
    exact ⟨"nginx", "1.25", "sha256:abcd", by decide, by decide⟩

/-- A flatMap of per-service diagnostics whose ids all differ from `i`
filters to nothing. -/
theorem filter_id_flatMap_nil {α : Type} {l : List α}
    {f : α → List LintingResult} {i : String}
    (h : ∀ x ∈ l, ∀ r ∈ f x, r.id ≠ i) :
    (l.flatMap f).filter (fun r => r.id == i) = [] :=
  filter_id_eq_nil fun r hr => by
    obtain ⟨x, hx, hrx⟩ := List.mem_flatMap.mp hr
    exact h x hx r hrx

/-- A flatMap of per-service diagnostics whose ids all equal `i` is left
unchanged by the filter. -/
theorem filter_id_flatMap_self {α : Type} {l : List α}
    {f : α → List LintingResult} {i : String}
    (h : ∀ x ∈ l, ∀ r ∈ f x, r.id = i) :
    (l.flatMap f).filter (fun r => r.id == i) = l.flatMap f :=
  filter_id_eq_self fun r hr => by
    obtain ⟨x, hx, hrx⟩ := List.mem_flatMap.mp hr
    exact h x hx r hrx

/-- C5: the `invalid_yaml_boolean_value` diagnostics of a schema-valid
compose document are exactly those of the bare-boolean check — one per
mapping key whose value is a native boolean, each referencing its key —
and a document none of whose `environment`/`labels`/`extra_hosts` entries
carries a boolean value (e.g. only quoted strings such as `"true"`)
produces none. -/
theorem claim5_bare_booleans (mocked : ComposeDoc) (raw : RawDoc)
    (schemaErrors : List AjvError) (files : List String) (appId : String)
    (srcMap : List String → SrcPos) :
    ((lintDockerComposeYml (.ok mocked) true schemaErrors (.ok raw) files
        appId srcMap).filter
          (fun r => r.id == "invalid_yaml_boolean_value") =
      (docServices mocked).flatMap fun p =>
        boolCheckForService srcMap p.1 p.2) ∧
    (∀ s svc label entries k b, (s, svc) ∈ docServices mocked →
      (label, entries) ∈ boolProps svc → (k, PrimValue.bool b) ∈ entries →
      boolValueDiag srcMap s label k b ∈
        lintDockerComposeYml (.ok mocked) true schemaErrors (.ok raw) files
          appId srcMap) ∧
    ((∀ s svc label entries kv, (s, svc) ∈ docServices mocked →
        (label, entries) ∈ boolProps svc → kv ∈ entries →
        ∀ b, kv.2 ≠ PrimValue.bool b) →
      countId (lintDockerComposeYml (.ok mocked) true schemaErrors (.ok raw)
        files appId srcMap) "invalid_yaml_boolean_value" = 0) := by
  rw [lint_ok_valid_eq]
  refine ⟨?_, ?_, ?_⟩
  · rw [List.filter_append, List.filter_append, List.filter_append]
    rw [filter_id_flatMap_nil fun x _ r hr => by
          rw [id_of_mem_imageCheck hr]; decide,
        filter_id_flatMap_self fun x _ r hr => id_of_mem_boolCheck hr,
        filter_id_flatMap_nil fun x _ r hr => by
          rw [id_of_mem_mountCheck hr]; decide,
        filter_id_flatMap_nil fun x _ r hr => by
          rw [id_of_mem_missingCheck hr]; decide]
    simp
  · intro s svc label entries k b hmem hlp hke
    refine List.mem_append_left _ (List.mem_append_left _
      (List.mem_append_right _ (List.mem_flatMap.mpr ⟨(s, svc), hmem, ?_⟩)))
    unfold boolCheckForService
    refine List.mem_flatMap.mpr ⟨(label, entries), hlp, ?_⟩
    refine List.mem_flatMap.mpr ⟨(k, PrimValue.bool b), hke, ?_⟩
    simp
  · intro hall
    rw [countId_append, countId_append, countId_append]
    have h1 : countId ((docServices mocked).flatMap fun p =>
        imageCheckForService srcMap p.1 p.2) "invalid_yaml_boolean_value" = 0 :=
      countId_flatMap_zero fun x _ r hr => by
        rw [id_of_mem_imageCheck hr]; decide
    have h2 : countId ((docServices mocked).flatMap fun p =>
        boolCheckForService srcMap p.1 p.2) "invalid_yaml_boolean_value" = 0 := by
      refine countId_flatMap_zero ?_
      rintro ⟨s, svc⟩ hx r hr
      unfold boolCheckForService at hr
      obtain ⟨⟨label, entries⟩, hlp, hr⟩ := List.mem_flatMap.mp hr
      obtain ⟨⟨k, v⟩, hke, hr⟩ := List.mem_flatMap.mp hr
      cases v with
      | bool b => exact absurd rfl (hall s svc label entries (k, .bool b) hx hlp hke b)
      | str v0 => simp at hr
      | num n0 => simp at hr
      | null => simp at hr
    have h3 : countId ((rawServices raw).flatMap fun p =>
        mountCheckForService srcMap p.1 p.2) "invalid_yaml_boolean_value" = 0 :=
      countId_flatMap_zero fun x _ r hr => by
        rw [id_of_mem_mountCheck hr]; decide
    have h4 : countId ((rawServices raw).flatMap fun p =>
        missingCheckForService srcMap files appId p.1 p.2)
        "invalid_yaml_boolean_value" = 0 :=
      countId_flatMap_zero fun x _ r hr => by
        rw [id_of_mem_missingCheck hr]; decide
    rw [h1, h2, h3, h4]

/-- Witness for C5: the native boolean `DEBUG: true` yields exactly its
diagnostic, and the quoted string `"true"` yields none. -/
theorem claim5_witness :
    boolValueDiag srcMap0 "web" "environment" "DEBUG" true ∈
      lintDockerComposeYml (.ok docEnvBool) true [] (.ok rawWeb) [] "app"
        srcMap0 ∧
    countId (lintDockerComposeYml (.ok docEnvStr) true [] (.ok rawWeb) []
      "app" srcMap0) "invalid_yaml_boolean_value" = 0 := by
  constructor
  · exact (claim5_bare_booleans docEnvBool rawWeb [] [] "app" srcMap0).2.1
      "web" { environment := some (.dict [("DEBUG", PrimValue.bool true)]) }
      "environment" [("DEBUG", PrimValue.bool true)] "DEBUG" true
      (by decide) (by decide) (by decide)
  · refine (claim5_bare_booleans docEnvStr rawWeb [] [] "app" srcMap0).2.2 ?_
    intro s svc label entries kv hmem hlp hke b
    have hsvc : svc =
        { environment := some (.dict [("DEBUG", PrimValue.str "true")]) } :=
      congrArg Prod.snd (List.mem_singleton.mp hmem)
    subst hsvc
    have hent : entries = [("DEBUG", PrimValue.str "true")] :=
      congrArg Prod.snd (List.mem_singleton.mp hlp)
    subst hent
    have hkv : kv = ("DEBUG", PrimValue.str "true") := List.mem_singleton.mp hke
    subst hkv
    exact fun h => PrimValue.noConfusion h

/-- A successful colon-delimited subpath extraction implies the
`APP_DATA_DIR` guard regex also matches. -/
theorem contains_of_extractColon : ∀ {l : List Char} {m : String},
    extractSubpathColonList l = some m → containsAppDataDirList l = true := by
  intro l
  induction l with
  | nil => intro m h; simp [extractSubpathColonList] at h
  | cons c rest ih =>
    intro m h
    unfold extractSubpathColonList at h
    unfold containsAppDataDirList
    rcases hp : matchAdPrefix (c :: rest) with _ | rem
    · rw [hp] at h
      have hc : matchAdCore (c :: rest) = none := by
        unfold matchAdPrefix at hp
        exact Option.map_eq_none'.mp hp
      rw [hc]
      simpa using ih h
    · have hcs : (matchAdCore (c :: rest)).isSome = true := by
        unfold matchAdPrefix at hp
        rcases hco : matchAdCore (c :: rest) with _ | rem0
        · rw [hco] at hp; simp at hp
        · simp
      simp [hcs]

/-- A successful end-anchored subpath extraction implies the
`APP_DATA_DIR` guard regex also matches. -/
theorem contains_of_extractEnd : ∀ {l : List Char} {m : String},
    extractSubpathEndList l = some m → containsAppDataDirList l = true := by
  intro l
  induction l with
  | nil => intro m h; simp [extractSubpathEndList] at h
  | cons c rest ih =>
    intro m h
    unfold extractSubpathEndList at h
    unfold containsAppDataDirList
    rcases hp : matchAdPrefix (c :: rest) with _ | rem
    · rw [hp] at h
      have hc : matchAdCore (c :: rest) = none := by
        unfold matchAdPrefix at hp
        exact Option.map_eq_none'.mp hp
      rw [hc]
      simpa using ih h
    · have hcs : (matchAdCore (c :: rest)).isSome = true := by
        unfold matchAdPrefix at hp
        rcases hco : matchAdCore (c :: rest) with _ | rem0
        · rw [hco] at hp; simp at hp
        · simp
      simp [hcs]

/-- C6: volume entries whose source is exactly the app-data-root
placeholder (optionally braced, optional trailing slash) — as decided by
the source's direct-mount regexes — yield the
`invalid_app_data_dir_volume_mount` warning, in string and object form;
the placeholder examples of the specification pass the test and the
subpath example `$\x7bAPP_DATA_DIR\x7d/sub:/data` does not; an entry
failing the test contributes nothing, so a document with only subpath
sources gets no such diagnostic. -/
theorem claim6_direct_mount (mocked : ComposeDoc) (raw : RawDoc)
    (schemaErrors : List AjvError) (files : List String) (appId : String)
    (srcMap : List String → SrcPos) :
    ((lintDockerComposeYml (.ok mocked) true schemaErrors (.ok raw) files
        appId srcMap).filter
          (fun r => r.id == "invalid_app_data_dir_volume_mount") =
      (rawServices raw).flatMap fun p =>
        mountCheckForService srcMap p.1 p.2) ∧
    (∀ s svc vols v, (s, svc) ∈ rawServices raw → svc.volumes = some vols →
      Volume.str v ∈ vols → directMountStr v = true →
      mountStrDiag srcMap s v ∈
        lintDockerComposeYml (.ok mocked) true schemaErrors (.ok raw) files
          appId srcMap) ∧
    (∀ s svc vols source target, (s, svc) ∈ rawServices raw →
      svc.volumes = some vols → Volume.obj source target ∈ vols →
      directMountSrc source = true →
      mountObjDiag srcMap s source target ∈
        lintDockerComposeYml (.ok mocked) true schemaErrors (.ok raw) files
          appId srcMap) ∧
    ((∀ p ∈ rawServices raw, ∀ vols, p.2.volumes = some vols → ∀ v ∈ vols,
        (∀ x, v = Volume.str x → directMountStr x = false) ∧
        (∀ src tgt, v = Volume.obj src tgt → directMountSrc src = false)) →
      countId (lintDockerComposeYml (.ok mocked) true schemaErrors (.ok raw)
        files appId srcMap) "invalid_app_data_dir_volume_mount" = 0) ∧
    (directMountStr "$\x7bAPP_DATA_DIR\x7d:/data" = true ∧
     directMountStr "$APP_DATA_DIR:/data" = true ∧
     directMountStr "$\x7bAPP_DATA_DIR\x7d/:/data" = true ∧
     directMountSrc "$\x7bAPP_DATA_DIR\x7d" = true ∧
     directMountSrc "$\x7bAPP_DATA_DIR\x7d/" = true ∧
     directMountStr "$\x7bAPP_DATA_DIR\x7d/sub:/data" = false ∧
     directMountSrc "$\x7bAPP_DATA_DIR\x7d/sub" = false) := by
  refine ⟨?_, ?_, ?_, ?_, by decide⟩
  · rw [lint_ok_valid_eq]
    rw [List.filter_append, List.filter_append, List.filter_append]
    rw [filter_id_flatMap_nil fun x _ r hr => by
          rw [id_of_mem_imageCheck hr]; decide,
        filter_id_flatMap_nil fun x _ r hr => by
          rw [id_of_mem_boolCheck hr]; decide,
        filter_id_flatMap_self fun x _ r hr => id_of_mem_mountCheck hr,
        filter_id_flatMap_nil fun x _ r hr => by
          rw [id_of_mem_missingCheck hr]; decide]
    simp
  · intro s svc vols v hmem hvs hv hd
    rw [lint_ok_valid_eq]
    refine List.mem_append_left _ (List.mem_append_right _
      (List.mem_flatMap.mpr ⟨(s, svc), hmem, ?_⟩))
    unfold mountCheckForService
    rw [hvs]
    refine List.mem_flatMap.mpr ⟨Volume.str v, hv, ?_⟩
    simp [hd]
  · intro s svc vols source target hmem hvs hv hd
    rw [lint_ok_valid_eq]
    refine List.mem_append_left _ (List.mem_append_right _
      (List.mem_flatMap.mpr ⟨(s, svc), hmem, ?_⟩))
    unfold mountCheckForService
    rw [hvs]
    refine List.mem_flatMap.mpr ⟨Volume.obj source target, hv, ?_⟩
    simp [hd]
  · intro hall
    rw [lint_ok_valid_eq]
    rw [countId_append, countId_append, countId_append]
    have h1 : countId ((docServices mocked).flatMap fun p =>
        imageCheckForService srcMap p.1 p.2)
        "invalid_app_data_dir_volume_mount" = 0 :=
      countId_flatMap_zero fun x _ r hr => by
        rw [id_of_mem_imageCheck hr]; decide
    have h2 : countId ((docServices mocked).flatMap fun p =>
        boolCheckForService srcMap p.1 p.2)
        "invalid_app_data_dir_volume_mount" = 0 :=
      countId_flatMap_zero fun x _ r hr => by
        rw [id_of_mem_boolCheck hr]; decide
    have h3 : countId ((rawServices raw).flatMap fun p =>
        mountCheckForService srcMap p.1 p.2)
        "invalid_app_data_dir_volume_mount" = 0 := by
      refine countId_flatMap_zero ?_
      rintro ⟨s, svc⟩ hx r hr
      unfold mountCheckForService at hr
      rcases hvs : svc.volumes with _ | vols <;> rw [hvs] at hr
      · simp at hr
      · obtain ⟨volume, hv, hr⟩ := List.mem_flatMap.mp hr
        have hcond := hall (s, svc) hx vols hvs volume hv
        cases volume with
        | str x => simp [hcond.1 x rfl] at hr
        | obj src tgt => simp [hcond.2 src tgt rfl] at hr
        | other => simp at hr
    have h4 : countId ((rawServices raw).flatMap fun p =>
        missingCheckForService srcMap files appId p.1 p.2)
        "invalid_app_data_dir_volume_mount" = 0 :=
      countId_flatMap_zero fun x _ r hr => by
        rw [id_of_mem_missingCheck hr]; decide
    rw [h1, h2, h3, h4]

/-- Witness for C6: `$\x7bAPP_DATA_DIR\x7d:/data` yields the warning and
a document with only the subpath mount yields no such diagnostic. -/
theorem claim6_witness :
    mountStrDiag srcMap0 "web" "$\x7bAPP_DATA_DIR\x7d:/data" ∈
      lintDockerComposeYml (.ok mockedEmpty) true [] (.ok rawMountDirect) []
        "app" srcMap0 ∧
    countId (lintDockerComposeYml (.ok mockedEmpty) true []
      (.ok rawMountSub) [] "app" srcMap0)
      "invalid_app_data_dir_volume_mount" = 0 := by
  constructor
  · exact (claim6_direct_mount mockedEmpty rawMountDirect [] [] "app"
      srcMap0).2.1 "web" ⟨some [.str "$\x7bAPP_DATA_DIR\x7d:/data"]⟩
      [.str "$\x7bAPP_DATA_DIR\x7d:/data"] "$\x7bAPP_DATA_DIR\x7d:/data"
      (by decide) rfl (by decide) (by decide)
  · refine (claim6_direct_mount mockedEmpty rawMountSub [] [] "app"
      srcMap0).2.2.2.1 ?_
    intro p hp vols hvs v hv
    have hp' : p = ("web",
        (⟨some [.str "$\x7bAPP_DATA_DIR\x7d/sub:/data"]⟩ : RawService)) :=
      List.mem_singleton.mp hp
    subst hp'
    have hvols : some [Volume.str "$\x7bAPP_DATA_DIR\x7d/sub:/data"] =
        some vols := hvs
    obtain rfl : vols = [Volume.str "$\x7bAPP_DATA_DIR\x7d/sub:/data"] :=
      (Option.some.injEq _ _ ▸ hvols).symm
    have hv' : v = Volume.str "$\x7bAPP_DATA_DIR\x7d/sub:/data" :=
      List.mem_singleton.mp hv
    subst hv'
    constructor
    · intro x hx
      injection hx with hx'
      subst hx'
      decide
    · intro src tgt hx
      exact Volume.noConfusion hx

/-- C7: a volume whose source references the app-data-root placeholder
with a non-empty subpath `m` (as extracted by the source's regexes) yields
the `missing_file_or_directory` error exactly when `appId ++ "/" ++ m` is
not in the supplied file list: absent paths produce the error (string and
object form), and when every referenced subpath is present no such
diagnostic is produced; `sub` is the subpath extracted from the
specification's example. -/
theorem claim7_missing_file (mocked : ComposeDoc) (raw : RawDoc)
    (schemaErrors : List AjvError) (files : List String) (appId : String)
    (srcMap : List String → SrcPos) :
    ((lintDockerComposeYml (.ok mocked) true schemaErrors (.ok raw) files
        appId srcMap).filter
          (fun r => r.id == "missing_file_or_directory") =
      (rawServices raw).flatMap fun p =>
        missingCheckForService srcMap files appId p.1 p.2) ∧
    (∀ s svc vols v m, (s, svc) ∈ rawServices raw → svc.volumes = some vols →
      Volume.str v ∈ vols → extractSubpathColon v = some m → m ≠ "" →
      (appId ++ "/" ++ m) ∉ files →
      missingStrDiag srcMap s v m appId ∈
        lintDockerComposeYml (.ok mocked) true schemaErrors (.ok raw) files
          appId srcMap) ∧
    (∀ s svc vols source target m, (s, svc) ∈ rawServices raw →
      svc.volumes = some vols → Volume.obj source target ∈ vols →
      extractSubpathEnd source = some m → m ≠ "" →
      (appId ++ "/" ++ m) ∉ files →
      missingObjDiag srcMap s source target m appId ∈
        lintDockerComposeYml (.ok mocked) true schemaErrors (.ok raw) files
          appId srcMap) ∧
    ((∀ p ∈ rawServices raw, ∀ vols, p.2.volumes = some vols → ∀ v ∈ vols,
        (∀ x m, v = Volume.str x → extractSubpathColon x = some m → m ≠ "" →
          (appId ++ "/" ++ m) ∈ files) ∧
        (∀ src tgt m, v = Volume.obj src tgt → extractSubpathEnd src = some m →
          m ≠ "" → (appId ++ "/" ++ m) ∈ files)) →
      countId (lintDockerComposeYml (.ok mocked) true schemaErrors (.ok raw)
        files appId srcMap) "missing_file_or_directory" = 0) ∧
    (extractSubpathColon "$\x7bAPP_DATA_DIR\x7d/sub:/data" = some "sub" ∧
     extractSubpathEnd "$\x7bAPP_DATA_DIR\x7d/sub" = some "sub") := by
  refine ⟨?_, ?_, ?_, ?_, by decide⟩
  · rw [lint_ok_valid_eq]
    rw [List.filter_append, List.filter_append, List.filter_append]
    rw [filter_id_flatMap_nil fun x _ r hr => by
          rw [id_of_mem_imageCheck hr]; decide,
        filter_id_flatMap_nil fun x _ r hr => by
          rw [id_of_mem_boolCheck hr]; decide,
        filter_id_flatMap_nil fun x _ r hr => by
          rw [id_of_mem_mountCheck hr]; decide,
        filter_id_flatMap_self fun x _ r hr => id_of_mem_missingCheck hr]
    simp
  · intro s svc vols v m hmem hvs hv hx hm0 hf
    rw [lint_ok_valid_eq]
    refine List.mem_append_right _ (List.mem_flatMap.mpr ⟨(s, svc), hmem, ?_⟩)
    unfold missingCheckForService
    rw [hvs]
    refine List.mem_flatMap.mpr ⟨Volume.str v, hv, ?_⟩
    have hc : containsAppDataDir v = true := contains_of_extractColon hx
    simp [hc, hx, hm0, hf]
  · intro s svc vols source target m hmem hvs hv hx hm0 hf
    rw [lint_ok_valid_eq]
    refine List.mem_append_right _ (List.mem_flatMap.mpr ⟨(s, svc), hmem, ?_⟩)
    unfold missingCheckForService
    rw [hvs]
    refine List.mem_flatMap.mpr ⟨Volume.obj source target, hv, ?_⟩
    have hc : containsAppDataDir source = true := contains_of_extractEnd hx
    simp [hc, hx, hm0, hf]
  · intro hall
    rw [lint_ok_valid_eq]
    rw [countId_append, countId_append, countId_append]
    have h1 : countId ((docServices mocked).flatMap fun p =>
        imageCheckForService srcMap p.1 p.2) "missing_file_or_directory" = 0 :=
      countId_flatMap_zero fun x _ r hr => by
        rw [id_of_mem_imageCheck hr]; decide
    have h2 : countId ((docServices mocked).flatMap fun p =>
        boolCheckForService srcMap p.1 p.2) "missing_file_or_directory" = 0 :=
      countId_flatMap_zero fun x _ r hr => by
        rw [id_of_mem_boolCheck hr]; decide
    have h3 : countId ((rawServices raw).flatMap fun p =>
        mountCheckForService srcMap p.1 p.2) "missing_file_or_directory" = 0 :=
      countId_flatMap_zero fun x _ r hr => by
        rw [id_of_mem_mountCheck hr]; decide
    have h4 : countId ((rawServices raw).flatMap fun p =>
        missingCheckForService srcMap files appId p.1 p.2)
        "missing_file_or_directory" = 0 := by
      refine countId_flatMap_zero ?_
      rintro ⟨s, svc⟩ hp r hr
      unfold missingCheckForService at hr
      rcases hvs : svc.volumes with _ | vols <;> rw [hvs] at hr
      · simp at hr
      · obtain ⟨volume, hv, hr⟩ := List.mem_flatMap.mp hr
        have hcond := hall (s, svc) hp vols hvs volume hv
        cases volume with
        | str x =>
          rcases hx : extractSubpathColon x with _ | m
          · simp [hx] at hr
          · by_cases hm0 : m = ""
            · simp [hx, hm0] at hr
            · simp [hx, hm0, hcond.1 x m rfl hx hm0] at hr
        | obj src tgt =>
          rcases hx : extractSubpathEnd src with _ | m
          · simp [hx] at hr
          · by_cases hm0 : m = ""
            · simp [hx, hm0] at hr
            · simp [hx, hm0, hcond.2 src tgt m rfl hx hm0] at hr
        | other => simp at hr
    rw [h1, h2, h3, h4]

/-- Witness for C7: with an empty file list the subpath mount yields its
missing-file error; adding `app/sub` to the file list removes it. -/
theorem claim7_witness :
    missingStrDiag srcMap0 "web" "$\x7bAPP_DATA_DIR\x7d/sub:/data" "sub"
        "app" ∈
      lintDockerComposeYml (.ok mockedEmpty) true [] (.ok rawMountSub) []
        "app" srcMap0 ∧
    countId (lintDockerComposeYml (.ok mockedEmpty) true []
      (.ok rawMountSub) ["app/sub"] "app" srcMap0)
      "missing_file_or_directory" = 0 := by
  constructor
  · exact (claim7_missing_file mockedEmpty rawMountSub [] [] "app"
      srcMap0).2.1 "web" ⟨some [.str "$\x7bAPP_DATA_DIR\x7d/sub:/data"]⟩
      [.str "$\x7bAPP_DATA_DIR\x7d/sub:/data"]
      "$\x7bAPP_DATA_DIR\x7d/sub:/data" "sub"
      (by decide) rfl (by decide) (by decide) (by decide) (by decide)
  · refine (claim7_missing_file mockedEmpty rawMountSub [] ["app/sub"] "app"
      srcMap0).2.2.2.1 ?_
    intro p hp vols hvs v hv
    have hp' : p = ("web",
        (⟨some [.str "$\x7bAPP_DATA_DIR\x7d/sub:/data"]⟩ : RawService)) :=
      List.mem_singleton.mp hp
    subst hp'
    have hvols : some [Volume.str "$\x7bAPP_DATA_DIR\x7d/sub:/data"] =
        some vols := hvs
    obtain rfl : vols = [Volume.str "$\x7bAPP_DATA_DIR\x7d/sub:/data"] :=
      (Option.some.injEq _ _ ▸ hvols).symm
    have hv' : v = Volume.str "$\x7bAPP_DATA_DIR\x7d/sub:/data" :=
      List.mem_singleton.mp hv
    subst hv'
    constructor
    · intro x m hx hex hm0
      injection hx with hx'
      subst hx'
      have hex' : some "sub" = some m := by
        rw [show extractSubpathColon "$\x7bAPP_DATA_DIR\x7d/sub:/data" =
          some "sub" by decide] at hex
        exact hex
      obtain rfl : m = "sub" := (Option.some.injEq _ _ ▸ hex').symm
      decide
    · intro src tgt m hx
      exact Volume.noConfusion hx

/-- C10: a volume whose source is the app-data-root placeholder with an
empty subpath is skipped by the missing-file check (the extracted group is
the falsy empty string): the specification's direct-mount examples all
extract `""`; a document all of whose volume sources extract an empty (or
no) subpath gets no `missing_file_or_directory` diagnostic regardless of
the file list; concretely, the single direct string mount (and the
object-form direct mount) receives the direct-mount warning but no
missing-file error even with an empty file list. -/
theorem claim10_direct_mount_no_missing (mocked : ComposeDoc) (raw : RawDoc)
    (schemaErrors : List AjvError) (files : List String) (appId : String)
    (srcMap : List String → SrcPos) :
    (extractSubpathColon "$\x7bAPP_DATA_DIR\x7d:/data" = some "" ∧
     extractSubpathColon "$\x7bAPP_DATA_DIR\x7d/:/data" = some "" ∧
     extractSubpathColon "$APP_DATA_DIR:/data" = some "" ∧
     extractSubpathEnd "$\x7bAPP_DATA_DIR\x7d" = some "" ∧
     extractSubpathEnd "$\x7bAPP_DATA_DIR\x7d/" = some "") ∧
    ((∀ p ∈ rawServices raw, ∀ vols, p.2.volumes = some vols → ∀ v ∈ vols,
        (∀ x m, v = Volume.str x → extractSubpathColon x = some m → m = "") ∧
        (∀ src tgt m, v = Volume.obj src tgt →
          extractSubpathEnd src = some m → m = "")) →
      countId (lintDockerComposeYml (.ok mocked) true schemaErrors (.ok raw)
        files appId srcMap) "missing_file_or_directory" = 0) ∧
    (countId (lintDockerComposeYml (.ok mockedEmpty) true []
        (.ok rawMountDirect) [] "app" srcMap0)
        "missing_file_or_directory" = 0 ∧
     countId (lintDockerComposeYml (.ok mockedEmpty) true []
        (.ok rawMountObjDirect) [] "app" srcMap0)
        "missing_file_or_directory" = 0 ∧
     countId (lintDockerComposeYml (.ok mockedEmpty) true []
        (.ok rawMountDirect) [] "app" srcMap0)
        "invalid_app_data_dir_volume_mount" = 1 ∧
     countId (lintDockerComposeYml (.ok mockedEmpty) true []
        (.ok rawMountObjDirect) [] "app" srcMap0)
        "invalid_app_data_dir_volume_mount" = 1) := by
  refine ⟨by decide, ?_, by decide⟩
  intro hall
  rw [lint_ok_valid_eq]
  rw [countId_append, countId_append, countId_append]
  have h1 : countId ((docServices mocked).flatMap fun p =>
      imageCheckForService srcMap p.1 p.2) "missing_file_or_directory" = 0 :=
    countId_flatMap_zero fun x _ r hr => by
      rw [id_of_mem_imageCheck hr]; decide
  have h2 : countId ((docServices mocked).flatMap fun p =>
      boolCheckForService srcMap p.1 p.2) "missing_file_or_directory" = 0 :=
    countId_flatMap_zero fun x _ r hr => by
      rw [id_of_mem_boolCheck hr]; decide
  have h3 : countId ((rawServices raw).flatMap fun p =>
      mountCheckForService srcMap p.1 p.2) "missing_file_or_directory" = 0 :=
    countId_flatMap_zero fun x _ r hr => by
      rw [id_of_mem_mountCheck hr]; decide
  have h4 : countId ((rawServices raw).flatMap fun p =>
      missingCheckForService srcMap files appId p.1 p.2)
      "missing_file_or_directory" = 0 := by
    refine countId_flatMap_zero ?_
    rintro ⟨s, svc⟩ hp r hr
    unfold missingCheckForService at hr
    rcases hvs : svc.volumes with _ | vols <;> rw [hvs] at hr
    · simp at hr
    · obtain ⟨volume, hv, hr⟩ := List.mem_flatMap.mp hr
      have hcond := hall (s, svc) hp vols hvs volume hv
      cases volume with
      | str x =>
        rcases hx : extractSubpathColon x with _ | m
        · simp [hx] at hr
        · simp [hx, hcond.1 x m rfl hx] at hr
      | obj src tgt =>
        rcases hx : extractSubpathEnd src with _ | m
        · simp [hx] at hr
        · simp [hx, hcond.2 src tgt m rfl hx] at hr
      | other => simp at hr
  rw [h1, h2, h3, h4]

/-- Witness for C10: the general part applied to the direct object-form
mount with an empty file list. -/
theorem claim10_witness :
    countId (lintDockerComposeYml (.ok mockedEmpty) true []
      (.ok rawMountObjDirect) [] "app" srcMap0)
      "missing_file_or_directory" = 0 := by
  refine (claim10_direct_mount_no_missing mockedEmpty rawMountObjDirect []
    [] "app" srcMap0).2.1 ?_
  intro p hp vols hvs v hv
  have hp' : p = ("web",
      (⟨some [.obj "$\x7bAPP_DATA_DIR\x7d" "/data"]⟩ : RawService)) :=
    List.mem_singleton.mp hp
  subst hp'
  have hvols : some [Volume.obj "$\x7bAPP_DATA_DIR\x7d" "/data"] =
      some vols := hvs
  obtain rfl : vols = [Volume.obj "$\x7bAPP_DATA_DIR\x7d" "/data"] :=
    (Option.some.injEq _ _ ▸ hvols).symm
  have hv' : v = Volume.obj "$\x7bAPP_DATA_DIR\x7d" "/data" :=
    List.mem_singleton.mp hv
  subst hv'
  constructor
  · intro x m hx
    exact Volume.noConfusion hx
  · intro src tgt m hx hex
    injection hx with hx1 hx2
    subst hx1
    have hex' : some "" = some m := by
      rw [show extractSubpathEnd "$\x7bAPP_DATA_DIR\x7d" = some "" by
        decide] at hex
      exact hex
    exact ((Option.some.injEq _ _ ▸ hex').symm : m = "")

/-- The severity policy holds for any error diagnostic whose id is not the
mount id. -/
theorem severityPolicy_of_error {r : LintingResult}
    (h1 : r.severity = .error)
    (h2 : r.id ≠ "invalid_app_data_dir_volume_mount") : severityPolicy r := by
  refine ⟨.inl h1, ?_, fun hm => absurd hm h2⟩
  intro hw
  rw [h1] at hw
  exact absurd hw (by decide)

/-- The severity policy holds for warnings carrying one of the two
warning-capable ids. -/
theorem severityPolicy_of_warning {r : LintingResult}
    (h1 : r.severity = .warning)
    (h2 : r.id = "invalid_docker_image_name" ∨
      r.id = "invalid_app_data_dir_volume_mount") : severityPolicy r :=
  ⟨.inr h1, fun _ => h2, fun _ => h1⟩

/-- C8: in submission mode (flag set, non-empty pull-request URL): on
schema failure the result is exactly the mapped zod issues, none of which
carries the `invalid_submission_field` id; on schema success with a
`submission` field differing from the URL the result is exactly the one
`invalid_submission_field` error; on schema success with a matching
`submission` field the result is empty — the two diagnostic kinds are
mutually exclusive and the submission check runs only after schema
success. -/
theorem claim8_submission_mode (u : String) (hu : u ≠ "")
    (srcMap : List String → SrcPos) :
    (∀ issues : List ZodIssue,
      lintUmbrelAppYml (.ok ()) (.error issues)
        { isNewAppSubmission := some true, pullRequestUrl := some u }
        srcMap = issues.map (zodIssueDiag srcMap) ∧
      ∀ r ∈ lintUmbrelAppYml (.ok ()) (.error issues)
        { isNewAppSubmission := some true, pullRequestUrl := some u }
        srcMap, r.id ≠ "invalid_submission_field") ∧
    (∀ appYml : AppYml, appYml.submission ≠ some u →
      lintUmbrelAppYml (.ok ()) (.ok appYml)
        { isNewAppSubmission := some true, pullRequestUrl := some u }
        srcMap = [submissionDiag appYml.submission u]) ∧
    (∀ appYml : AppYml, appYml.submission = some u →
      lintUmbrelAppYml (.ok ()) (.ok appYml)
        { isNewAppSubmission := some true, pullRequestUrl := some u }
        srcMap = []) := by
  refine ⟨?_, ?_, ?_⟩
  · intro issues
    refine ⟨rfl, ?_⟩
    intro r hr
    simp [lintUmbrelAppYml] at hr
    obtain ⟨issue, _, rfl⟩ := hr
    obtain ⟨c, p, msg⟩ := issue
    show ZodCode.toId c ≠ "invalid_submission_field"
    cases c <;> decide
  · intro appYml hne
    have hc : (optBoolTruthy (some true) && optStrTruthy (some u) &&
        (appYml.submission != some u)) = true := by
      simp [optBoolTruthy, optStrTruthy, hu, hne]
    unfold lintUmbrelAppYml
    dsimp only
    rw [hc]
    simp
  · intro appYml heq
    have hc : (optBoolTruthy (some true) && optStrTruthy (some u) &&
        (appYml.submission != some u)) = false := by
      simp [optBoolTruthy, optStrTruthy, heq]
    unfold lintUmbrelAppYml
    dsimp only
    rw [hc]
    simp

/-- Witness for C8: a manifest whose submission field differs from the
pull-request URL yields exactly the `invalid_submission_field` error. -/
theorem claim8_witness :
    lintUmbrelAppYml (.ok ()) (.ok ⟨some "https://example.com/other"⟩)
      { isNewAppSubmission := some true, pullRequestUrl := some prUrl0 }
      srcMap0 =
      [submissionDiag (some "https://example.com/other") prUrl0] :=
  (claim8_submission_mode prUrl0 (by decide) srcMap0).2.1
    ⟨some "https://example.com/other"⟩ (by decide)

/-- The fixed diagnostic ids other than the mount id differ from it. -/
theorem yaml_syntax_ne_mount :
    ("invalid_yaml_syntax" : String) ≠ "invalid_app_data_dir_volume_mount" := by
  decide

theorem submission_ne_mount :
    ("invalid_submission_field" : String) ≠
      "invalid_app_data_dir_volume_mount" := by
  decide

theorem image_ne_mount :
    ("invalid_docker_image_name" : String) ≠
      "invalid_app_data_dir_volume_mount" := by
  decide

theorem boolv_ne_mount :
    ("invalid_yaml_boolean_value" : String) ≠
      "invalid_app_data_dir_volume_mount" := by
  decide

theorem missing_ne_mount :
    ("missing_file_or_directory" : String) ≠
      "invalid_app_data_dir_volume_mount" := by
  decide

/-- C9: every diagnostic of the three validators is an error or a warning
(severity `info` is never produced); warnings occur only with the
`invalid_docker_image_name` (matching image, `latest` tag) and
`invalid_app_data_dir_volume_mount` ids; and every
`invalid_app_data_dir_volume_mount` diagnostic is a warning. -/
theorem claim9_severity_discipline
    (parseS : Except String Unit) (zs : Except (List ZodIssue) Unit)
    (parseA : Except String Unit) (za : Except (List ZodIssue) AppYml)
    (options : LintUmbrelAppYmlOptions)
    (mockedParse : Except String ComposeDoc) (schemaValid : Bool)
    (schemaErrors : List AjvError) (rawParse : Except String RawDoc)
    (files : List String) (appId : String)
    (srcMap : List String → SrcPos) :
    (∀ r ∈ lintUmbrelAppStoreYml parseS zs srcMap, severityPolicy r) ∧
    (∀ r ∈ lintUmbrelAppYml parseA za options srcMap, severityPolicy r) ∧
    (∀ r ∈ lintDockerComposeYml mockedParse schemaValid schemaErrors
        rawParse files appId srcMap, severityPolicy r) := by
  refine ⟨?_, ?_, ?_⟩
  · intro r hr
    rcases parseS with e | u
    · simp [lintUmbrelAppStoreYml] at hr
      subst hr
      exact severityPolicy_of_error rfl yaml_syntax_ne_mount
    · rcases zs with issues | u2
      · simp [lintUmbrelAppStoreYml] at hr
        obtain ⟨issue, _, rfl⟩ := hr
        refine severityPolicy_of_error rfl ?_
        obtain ⟨c, p, msg⟩ := issue
        show ZodCode.toId c ≠ "invalid_app_data_dir_volume_mount"
        cases c <;> decide
      · simp [lintUmbrelAppStoreYml] at hr
  · intro r hr
    rcases parseA with e | u
    · simp [lintUmbrelAppYml] at hr
      subst hr
      exact severityPolicy_of_error rfl yaml_syntax_ne_mount
    · rcases za with issues | appYml
      · simp [lintUmbrelAppYml] at hr
        obtain ⟨issue, _, rfl⟩ := hr
        refine severityPolicy_of_error rfl ?_
        obtain ⟨c, p, msg⟩ := issue
        show ZodCode.toId c ≠ "invalid_app_data_dir_volume_mount"
        cases c <;> decide
      · unfold lintUmbrelAppYml at hr
        dsimp only at hr
        split at hr
        · simp at hr
          subst hr
          exact severityPolicy_of_error rfl submission_ne_mount
        · simp at hr
  · intro r hr
    rcases mockedParse with e | mocked
    · simp [lintDockerComposeYml] at hr
      subst hr
      exact severityPolicy_of_error rfl yaml_syntax_ne_mount
    · cases schemaValid
      · simp [lintDockerComposeYml] at hr
        obtain ⟨err, _, rfl⟩ := hr
        refine severityPolicy_of_error rfl ?_
        obtain ⟨k, ip, msg⟩ := err
        show AjvKeyword.toId k ≠ "invalid_app_data_dir_volume_mount"
        cases k <;> decide
      · rcases rawParse with e | raw
        · simp [lintDockerComposeYml] at hr
          subst hr
          exact severityPolicy_of_error rfl yaml_syntax_ne_mount
        · rw [lint_ok_valid_eq] at hr
          rcases List.mem_append.mp hr with h123 | h4
          · rcases List.mem_append.mp h123 with h12 | h3
            · rcases List.mem_append.mp h12 with h1 | h2
              · obtain ⟨x, _, h1⟩ := List.mem_flatMap.mp h1
                rcases mem_imageCheckForService h1 with ⟨img, rfl⟩ | rfl
                · exact severityPolicy_of_error rfl image_ne_mount
                · exact severityPolicy_of_warning rfl (.inl rfl)
              · obtain ⟨x, _, h2⟩ := List.mem_flatMap.mp h2
                obtain ⟨label, key, b, rfl⟩ := mem_boolCheckForService h2
                exact severityPolicy_of_error rfl boolv_ne_mount
            · obtain ⟨x, _, h3⟩ := List.mem_flatMap.mp h3
              rcases mem_mountCheckForService h3 with ⟨v, rfl⟩ | ⟨a, b, rfl⟩ <;>
                exact severityPolicy_of_warning rfl (.inr rfl)
          · obtain ⟨x, _, h4⟩ := List.mem_flatMap.mp h4
            rcases mem_missingCheckForService h4 with ⟨v, m, rfl⟩ |
              ⟨a, b, m, rfl⟩ <;>
              exact severityPolicy_of_error rfl missing_ne_mount

/-- Witness for C9: the policy applied to a concrete syntax-error
diagnostic of the store validator. -/
theorem claim9_witness : severityPolicy (storeYamlSyntaxDiag "boom") :=
  (claim9_severity_discipline (.error "boom") (.ok ()) (.ok ()) (.ok ⟨none⟩)
    {} (.ok mockedEmpty) true [] (.ok ⟨none⟩) [] "app" srcMap0).1 _ (by decide)
